import Mathlib

/-!
# Weaviate MCP server: tool adapter layer

A shallow embedding of `mcp.go` and `weaviate.go`.

* Go interface values decoded from a JSON argument map are the inductive `Value`.
* A Go `error` is the inductive `GoError`; a nil error is `none`.
* A run of a handler either returns or panics (`Run`), and records the calls
  it made to the store gateway and to the store client (`Event`).
* The store client (batch insertion, GraphQL hybrid search, JSON encoding of the
  search response) is a parameter: `WeaviateConnection`.
-/

namespace WeaviateMCP

/-! ## Go values and type assertions -/

/-- A Go `interface{}` value as decoded from JSON. The payload of a number is
never inspected by the program. -/
inductive Value where
  | null : Value
  | bool (b : Bool) : Value
  | number (n : Int) : Value
  | str (s : String) : Value
  | array (elems : List Value) : Value
  | object (fields : List (String × Value)) : Value

/-- The type assertion `v.(string)`. -/
def Value.assertString : Value → Option String
  | .str s => some s
  | _ => none

/-- The type assertion `v.([]interface{})`. -/
def Value.assertArray : Value → Option (List Value)
  | .array xs => some xs
  | _ => none

/-- The type assertion `v.(map[string]interface{})`. -/
def Value.assertObject : Value → Option (List (String × Value))
  | .object fs => some fs
  | _ => none

/-- Indexing a Go map: an absent key yields the zero value, the nil interface. -/
def mapIndex (m : List (String × Value)) (k : String) : Value :=
  (m.lookup k).getD Value.null

/-! ## Go errors -/

/-- Go error values built by `errors.New`, `fmt.Errorf` with one `%w` verb at the
end of the format, and `errors.Join`. -/
inductive GoError where
  | new (msg : String) : GoError
  | errorf (lead : String) (cause : GoError) : GoError
  | join (errs : List GoError) : GoError

mutual
/-- The method `Error()`. -/
def GoError.Error : GoError → String
  | .new msg => msg
  | .errorf lead cause => lead ++ cause.Error
  | .join errs => GoError.joinLines errs
/-- The text of a `joinError`: the texts of its parts separated by a newline. -/
def GoError.joinLines : List GoError → String
  | [] => ""
  | [e] => e.Error
  | e :: e2 :: es => e.Error ++ "\n" ++ GoError.joinLines (e2 :: es)
end

/-- The call `errors.Join(errs...)`: nil arguments are discarded, and the result is
nil when nothing is left. -/
def errorsJoin (errs : List (Option GoError)) : Option GoError :=
  match errs.filterMap id with
  | [] => none
  | es => some (GoError.join es)

/-! ## Store model types -/

/-- The type `models.Object`, with the fields the program sets or reads. -/
structure Object where
  Class : String
  Properties : Value
  ID : String

/-- The method `strfmt.UUID.String`. -/
def uuidString (id : String) : String := id

/-- Modelled from the spec: one nested error entry of a batch result, `{message}`
(the declaration of `models.ErrorResponseErrorItems0` is not part of the sources). -/
structure ErrorResponseErrorItems0 where
  Message : String

/-- Modelled from the spec: the nested errors of a batch result, `errors: [ {message} ]`
(the declaration of `models.ErrorResponse` is not part of the sources); `none` is
the nil slice that `batchInsert` tests for. -/
structure ErrorResponse where
  Error : Option (List ErrorResponseErrorItems0)

/-- The type `models.ObjectsGetResponseAO2Result`; `none` is the nil pointer that
`batchInsert` tests for. -/
structure ObjectsGetResponseAO2Result where
  Errors : Option ErrorResponse

/-- The type `models.ObjectsGetResponse`: the object with its result record. -/
structure ObjectsGetResponse where
  Object : Object
  Result : Option ObjectsGetResponseAO2Result

/-- The type `graphql.Field`, with the field the program sets. -/
structure Field where
  Name : String

/-- The store client held by a connection. Each Go call returns a value together
with an error, which may be nil. -/
structure WeaviateConnection where
  Response : Type
  batchObjects : List Object → List ObjectsGetResponse × Option GoError
  graphqlGet : String → String → List Field → Response × Option GoError
  jsonMarshal : Response → String × Option GoError

/-! ## Runs -/

/-- What a run observes: entries into the store gateway and calls to the client. -/
inductive Event where
  | insertOne (collection : String) (props : List (String × Value)) : Event
  | query (collection : String) (query : String) (targetProps : List String) : Event
  | batchDo (objs : List Object) : Event
  | graphqlDo (className : String) (hybridQuery : String) (fields : List Field) : Event

/-- Runtime faults of the Go program. -/
inductive Panic where
  | interfaceConversion (key : String) : Panic
  | indexOutOfRange (index : Nat) (length : Nat) : Panic
  | nilDereference : Panic

/-- The end of a run: a returned value or a panic. -/
inductive Run (α : Type) where
  | ret (a : α) : Run α
  | panic (p : Panic) : Run α

/-- A run: the events in order and how it ended. -/
structure Exec (α : Type) where
  events : List Event
  result : Run α

/-! ## weaviate.go -/

/-- The inner loop of `batchInsert`: `err = errors.Join(err, errors.New(nestedErr.Message))`
for each nested error. -/
def joinNested (err : Option GoError) (items : List ErrorResponseErrorItems0) : Option GoError :=
  items.foldl (fun acc nestedErr => errorsJoin [acc, some (GoError.new nestedErr.Message)]) err

/-- The nested errors that the guard of `batchInsert` lets through for one result. -/
def nestedOf (res : ObjectsGetResponse) : List ErrorResponseErrorItems0 :=
  match res.Result with
  | none => []
  | some result =>
    match result.Errors with
    | none => []
    | some errors =>
      match errors.Error with
      | none => []
      | some items => items

/-- The outer loop of `batchInsert` over the results. -/
def joinResults (err : Option GoError) (resp : List ObjectsGetResponse) : Option GoError :=
  resp.foldl (fun acc res => joinNested acc (nestedOf res)) err

/-- The function `batchInsert`. -/
def batchInsert (conn : WeaviateConnection) (objs : List Object) :
    List Event × List ObjectsGetResponse × Option GoError :=
  match conn.batchObjects objs with
  | (_, some err) => ([Event.batchDo objs], [], some (GoError.errorf "make insertion request: " err))
  | (resp, none) => ([Event.batchDo objs], resp, joinResults none resp)

/-- The function `InsertOne`. The identifier of the submitted object is left at its
zero value. -/
def InsertOne (conn : WeaviateConnection) (collection : String) (props : List (String × Value)) :
    Exec (Option Object × Option GoError) :=
  let obj : Object := { Class := collection, Properties := Value.object props, ID := "" }
  match batchInsert conn [obj] with
  | (evs, _, some err) =>
    ⟨Event.insertOne collection props :: evs,
      Run.ret (none, some (GoError.errorf "insert one object: " err))⟩
  | (evs, resp, none) =>
    match resp with
    | [] => ⟨Event.insertOne collection props :: evs, Run.panic (Panic.indexOutOfRange 0 0)⟩
    | first :: _ => ⟨Event.insertOne collection props :: evs, Run.ret (some first.Object, none)⟩

/-- The closure passed to `WithFields`: `make` a slice of the length of `targetProps`
and assign the field at each index. -/
def buildFields (targetProps : List String) : List Field :=
  targetProps.enum.foldl (fun fields ip => fields.set ip.1 { Name := ip.2 })
    (List.replicate targetProps.length { Name := "" })

/-- The function `Query`. -/
def Query (conn : WeaviateConnection) (collection : String) (query : String)
    (targetProps : List String) : List Event × String × Option GoError :=
  let fields := buildFields targetProps
  let evs := [Event.query collection query targetProps, Event.graphqlDo collection query fields]
  match conn.graphqlGet collection query fields with
  | (_, some err) => (evs, "", some err)
  | (res, none) =>
    match conn.jsonMarshal res with
    | (_, some err) => (evs, "", some (GoError.errorf "unmarshal query response: " err))
    | (b, none) => (evs, b, none)

/-! ## The mcp-go library, as far as the program uses it -/

/-- The type `mcp.TextContent`. -/
structure TextContent where
  Type_ : String
  Text : String

/-- The type `mcp.CallToolResult`: the result envelope. `IsError` marks a failure. -/
structure CallToolResult where
  Content : List TextContent
  IsError : Bool

/-- The constructor `mcp.NewToolResultText`. -/
def NewToolResultText (text : String) : CallToolResult :=
  { Content := [{ Type_ := "text", Text := text }], IsError := false }

/-- The constructor `mcp.NewToolResultError`. -/
def NewToolResultError (text : String) : CallToolResult :=
  { Content := [{ Type_ := "text", Text := text }], IsError := true }

/-- The constructor `mcp.NewToolResultErrorFromErr`: a non-nil error is appended to
the text with the format `%s: %v`. -/
def NewToolResultErrorFromErr (text : String) (err : Option GoError) : CallToolResult :=
  match err with
  | some e => NewToolResultError (text ++ ": " ++ e.Error)
  | none => NewToolResultError text

/-- The parameters of a tool call. -/
structure CallToolParams where
  Name : String
  Arguments : List (String × Value)

/-- The type `mcp.CallToolRequest`. -/
structure CallToolRequest where
  Params : CallToolParams

/-- The schema of one declared parameter while its options are applied. -/
structure PropertySchema where
  kind : String
  description : Option String
  required : Bool

/-- The input schema of a tool: declared parameters and the names of the required ones. -/
structure ToolInputSchema where
  Properties : List (String × PropertySchema)
  Required : List String

/-- The type `mcp.Tool`. -/
structure Tool where
  Name : String
  InputSchema : ToolInputSchema

/-- The option `mcp.Description`. -/
def Description (desc : String) : PropertySchema → PropertySchema :=
  fun schema => { schema with description := some desc }

/-- The option `mcp.Required`. -/
def Required : PropertySchema → PropertySchema :=
  fun schema => { schema with required := true }

/-- Declares one parameter of the given JSON type on a tool. -/
def withProperty (kind : String) (name : String) (opts : List (PropertySchema → PropertySchema)) :
    Tool → Tool :=
  fun t =>
    let schema := opts.foldl (fun sch opt => opt sch) { kind := kind, description := none, required := false }
    { t with InputSchema :=
        { Properties := t.InputSchema.Properties ++ [(name, schema)],
          Required := if schema.required then t.InputSchema.Required ++ [name]
                      else t.InputSchema.Required } }

/-- The option `mcp.WithString`. -/
def WithString (name : String) (opts : List (PropertySchema → PropertySchema)) : Tool → Tool :=
  withProperty "string" name opts

/-- The option `mcp.WithObject`. -/
def WithObject (name : String) (opts : List (PropertySchema → PropertySchema)) : Tool → Tool :=
  withProperty "object" name opts

/-- The option `mcp.WithArray`. -/
def WithArray (name : String) (opts : List (PropertySchema → PropertySchema)) : Tool → Tool :=
  withProperty "array" name opts

/-- The constructor `mcp.NewTool`. -/
def NewTool (name : String) (opts : List (Tool → Tool)) : Tool :=
  opts.foldl (fun t opt => opt t) { Name := name, InputSchema := { Properties := [], Required := [] } }

/-! ## mcp.go -/

/-- The type `MCPServer`, with the fields the handlers read. -/
structure MCPServer where
  weaviateConn : WeaviateConnection
  defaultCollection : String

/-- The constructor `NewMCPServer`, given the connection. -/
def NewMCPServer (conn : WeaviateConnection) : MCPServer :=
  { weaviateConn := conn, defaultCollection := "DefaultCollection" }

/-- The method `parseTargetCollection`. -/
def parseTargetCollection (s : MCPServer) (req : CallToolRequest) : String :=
  match (mapIndex req.Params.Arguments "collection").assertString with
  | some col => col
  | none => s.defaultCollection

/-- The handler `weaviateInsertOne`. -/
def weaviateInsertOne (s : MCPServer) (req : CallToolRequest) :
    Exec (CallToolResult × Option GoError) :=
  let targetCol := parseTargetCollection s req
  match (mapIndex req.Params.Arguments "properties").assertObject with
  | none => ⟨[], Run.panic (Panic.interfaceConversion "properties")⟩
  | some props =>
    match InsertOne s.weaviateConn targetCol props with
    | ⟨evs, Run.panic p⟩ => ⟨evs, Run.panic p⟩
    | ⟨evs, Run.ret (_, some err)⟩ =>
      ⟨evs, Run.ret (NewToolResultErrorFromErr "failed to insert object" (some err), none)⟩
    | ⟨evs, Run.ret (none, none)⟩ => ⟨evs, Run.panic Panic.nilDereference⟩
    | ⟨evs, Run.ret (some res, none)⟩ => ⟨evs, Run.ret (NewToolResultText (uuidString res.ID), none)⟩

/-- The loop of `weaviateQuery` over `props`: `none` when an element is not a string. -/
def collectStrings : List Value → List String → Option (List String)
  | [], targetProps => some targetProps
  | prop :: rest, targetProps =>
    match prop.assertString with
    | none => none
    | some typed => collectStrings rest (targetProps ++ [typed])

/-- The handler `weaviateQuery`. -/
def weaviateQuery (s : MCPServer) (req : CallToolRequest) :
    Exec (CallToolResult × Option GoError) :=
  let targetCol := parseTargetCollection s req
  match (mapIndex req.Params.Arguments "query").assertString with
  | none => ⟨[], Run.panic (Panic.interfaceConversion "query")⟩
  | some query =>
    match (mapIndex req.Params.Arguments "targetProperties").assertArray with
    | none => ⟨[], Run.panic (Panic.interfaceConversion "targetProperties")⟩
    | some props =>
      match collectStrings props [] with
      | none => ⟨[], Run.ret (NewToolResultError "targetProperties must contain only strings", none)⟩
      | some targetProps =>
        match Query s.weaviateConn targetCol query targetProps with
        | (evs, _, some err) =>
          ⟨evs, Run.ret (NewToolResultErrorFromErr "failed to process query" (some err), none)⟩
        | (evs, res, none) => ⟨evs, Run.ret (NewToolResultText res, none)⟩

/-- A registered tool with its handler. -/
structure ServerTool where
  Tool : Tool
  Handler : CallToolRequest → Exec (CallToolResult × Option GoError)

/-- The method `registerTools`: the tools handed to `AddTools`. -/
def registerTools (s : MCPServer) : List ServerTool :=
  let insertOne := NewTool "weaviate-insert-one"
    [ WithString "collection" [Description "Name of the target collection"],
      WithObject "properties" [Description "Object properties to insert", Required] ]
  let query := NewTool "weaviate-query"
    [ WithString "query" [Description "Query data within Weaviate", Required],
      WithArray "targetProperties" [Description "Properties to return with the query", Required] ]
  [ { Tool := insertOne, Handler := weaviateInsertOne s },
    { Tool := query, Handler := weaviateQuery s } ]

/-! ## Sample store clients and requests, used to evaluate the program -/

/-- A store client that answers every batch call with `resp` and `err`, and every
search with an empty response. -/
def constConn (resp : List ObjectsGetResponse) (err : Option GoError) : WeaviateConnection :=
  { Response := String,
    batchObjects := fun _ => (resp, err),
    graphqlGet := fun _ _ _ => ("", none),
    jsonMarshal := fun res => (res, none) }

/-- A batch result for an object with the given identifier and nested error messages. -/
def resultWith (id : String) (msgs : List String) : ObjectsGetResponse :=
  { Object := { Class := "WorldMap", Properties := Value.object [], ID := id },
    Result := some { Errors := some { Error := some (msgs.map fun m => { Message := m }) } } }

/-- A tool call with the given arguments. -/
def callWith (name : String) (args : List (String × Value)) : CallToolRequest :=
  { Params := { Name := name, Arguments := args } }

/-! ## Specification-side notions -/

/-- The messages of all nested errors of a batch response, result by result and in
order within a result. -/
def nestedMessages (resp : List ObjectsGetResponse) : List String :=
  resp.flatMap fun res => (nestedOf res).map fun item => item.Message

/-- Texts joined in order, separated by a newline (the text form of `errors.Join`). -/
def joinedText : List String → String
  | [] => ""
  | [m] => m
  | m :: m2 :: ms => m ++ "\n" ++ joinedText (m2 :: ms)

mutual
/-- The messages of the `errors.New` leaves of an error, from left to right. -/
def GoError.leaves : GoError → List String
  | .new msg => [msg]
  | .errorf _ cause => cause.leaves
  | .join errs => GoError.leavesList errs
/-- The leaves of a list of errors, from left to right. -/
def GoError.leavesList : List GoError → List String
  | [] => []
  | e :: es => e.leaves ++ GoError.leavesList es
end

/-- The leads that the handlers put in front of a store error. -/
def phaseLeads : List String := ["failed to insert object", "failed to process query"]

/-- A failure text of the form: phase lead, then ": ", then the text of the cause. -/
def PhaseLed (text : String) : Prop :=
  ∃ lead ∈ phaseLeads, ∃ cause : String, text = lead ++ ": " ++ cause

/-- The loop invariant of `batchInsert`: the error accumulated so far is nil exactly
when no message has been seen, and otherwise carries the seen messages in order. -/
def Aggregates (acc : Option GoError) (seen : List String) : Prop :=
  (acc = none ∧ seen = []) ∨
    ∃ e, acc = some e ∧ seen ≠ [] ∧ e.Error = joinedText seen ∧ e.leaves = seen

/-! # Theorems -/

/-! ## Argument resolution -/

/-- C1 (evaluation at the failing inputs): when `properties` is absent or is not an
object, `weaviateInsertOne` panics on its type assertion; when `query` is absent or
not a string, or `targetProperties` is absent or not a list, `weaviateQuery` panics
on its type assertion. No Failure envelope is returned; no store call is made. -/
theorem required_argument_missing_panics (s : MCPServer) :
    weaviateInsertOne s (callWith "weaviate-insert-one" [])
        = ⟨[], Run.panic (Panic.interfaceConversion "properties")⟩
      ∧ weaviateInsertOne s (callWith "weaviate-insert-one" [("properties", Value.str "x")])
        = ⟨[], Run.panic (Panic.interfaceConversion "properties")⟩
      ∧ weaviateQuery s (callWith "weaviate-query" [("targetProperties", Value.array [])])
        = ⟨[], Run.panic (Panic.interfaceConversion "query")⟩
      ∧ weaviateQuery s (callWith "weaviate-query"
          [("query", Value.number 7), ("targetProperties", Value.array [])])
        = ⟨[], Run.panic (Panic.interfaceConversion "query")⟩
      ∧ weaviateQuery s (callWith "weaviate-query" [("query", Value.str "q")])
        = ⟨[], Run.panic (Panic.interfaceConversion "targetProperties")⟩
      ∧ weaviateQuery s (callWith "weaviate-query"
          [("query", Value.str "q"), ("targetProperties", Value.str "city")])
        = ⟨[], Run.panic (Panic.interfaceConversion "targetProperties")⟩ :=
  ⟨rfl, rfl, rfl, rfl, rfl, rfl⟩

/-- C2: `parseTargetCollection` returns the value of `collection` when the key is
present and holds a string (the empty string included), and the configured default
collection in every other case. It is a total function: it never fails. -/
theorem parseTargetCollection_spec (s : MCPServer) (req : CallToolRequest) :
    parseTargetCollection s req =
      match req.Params.Arguments.lookup "collection" with
      | some (Value.str col) => col
      | _ => s.defaultCollection := by
  unfold parseTargetCollection mapIndex
  cases h : req.Params.Arguments.lookup "collection" with
  | none => rfl
  | some v => cases v <;> rfl

theorem collectStrings_none_of_nonstring (props : List Value) (acc : List String)
    (h : ∃ v ∈ props, v.assertString = none) : collectStrings props acc = none := by
  induction props generalizing acc with
  | nil => simp at h
  | cons p rest ih =>
    unfold collectStrings
    cases hp : p.assertString with
    | none => rfl
    | some typed =>
      have hrest : ∃ v ∈ rest, v.assertString = none := by
        obtain ⟨v, hv, hn⟩ := h
        rcases List.mem_cons.mp hv with rfl | hv
        · rw [hp] at hn; cases hn
        · exact ⟨v, hv, hn⟩
      simpa using ih (acc ++ [typed]) hrest

/-- C3: when `query` is a string and `targetProperties` is a list with at least one
element that is not a string, at any position, `weaviateQuery` returns the Failure
envelope with the message "targetProperties must contain only strings" and a nil Go
error, and the run holds no store event: `Query` is never called. -/
theorem weaviateQuery_rejects_nonstring_element (s : MCPServer) (req : CallToolRequest)
    (query : String) (props : List Value)
    (hq : req.Params.Arguments.lookup "query" = some (Value.str query))
    (hp : req.Params.Arguments.lookup "targetProperties" = some (Value.array props))
    (hbad : ∃ v ∈ props, v.assertString = none) :
    weaviateQuery s req =
      ⟨[], Run.ret ({ Content := [{ Type_ := "text",
                                     Text := "targetProperties must contain only strings" }],
                      IsError := true }, none)⟩ := by
  unfold weaviateQuery
  simp only [mapIndex, hq, hp, Option.getD_some, Value.assertString, Value.assertArray,
    collectStrings_none_of_nonstring props [] hbad]
  rfl

/-- Witness for C3: a non-string element in the last position. -/
theorem weaviateQuery_rejects_nonstring_element_witness :
    weaviateQuery (NewMCPServer (constConn [] none))
        (callWith "weaviate-query"
          [("query", Value.str "q"),
           ("targetProperties", Value.array [Value.str "city", Value.number 1])]) =
      ⟨[], Run.ret ({ Content := [{ Type_ := "text",
                                     Text := "targetProperties must contain only strings" }],
                      IsError := true }, none)⟩ :=
  weaviateQuery_rejects_nonstring_element _ _ "q" [Value.str "city", Value.number 1]
    rfl rfl ⟨Value.number 1, by simp, rfl⟩

/-! ## Aggregation of nested batch errors -/

theorem joinedText_snoc (seen : List String) (m : String) (h : seen ≠ []) :
    joinedText (seen ++ [m]) = joinedText seen ++ "\n" ++ m := by
  induction seen with
  | nil => exact absurd rfl h
  | cons a rest ih =>
    cases rest with
    | nil => rfl
    | cons b rest2 =>
      have hrec := ih (by simp)
      simp only [List.cons_append] at hrec ⊢
      simp only [joinedText, hrec, String.append_assoc]

theorem aggregates_step (acc : Option GoError) (seen : List String) (m : String)
    (h : Aggregates acc seen) :
    Aggregates (errorsJoin [acc, some (GoError.new m)]) (seen ++ [m]) := by
  rcases h with ⟨rfl, rfl⟩ | ⟨e, rfl, hne, herr, hleaves⟩
  · refine Or.inr ⟨GoError.join [GoError.new m], rfl, by simp, ?_, ?_⟩
    · simp [GoError.Error, GoError.joinLines, joinedText]
    · simp [GoError.leaves, GoError.leavesList]
  · refine Or.inr ⟨GoError.join [e, GoError.new m], rfl, by simp, ?_, ?_⟩
    · rw [joinedText_snoc seen m hne]
      simp [GoError.Error, GoError.joinLines, herr, String.append_assoc]
    · simp [GoError.leaves, GoError.leavesList, hleaves]

theorem aggregates_joinNested (items : List ErrorResponseErrorItems0) (acc : Option GoError)
    (seen : List String) (h : Aggregates acc seen) :
    Aggregates (joinNested acc items) (seen ++ items.map fun item => item.Message) := by
  induction items generalizing acc seen with
  | nil => simpa [joinNested] using h
  | cons item rest ih =>
    have hstep := ih _ _ (aggregates_step acc seen item.Message h)
    simpa [joinNested, List.append_assoc] using hstep

theorem aggregates_joinResults (resp : List ObjectsGetResponse) (acc : Option GoError)
    (seen : List String) (h : Aggregates acc seen) :
    Aggregates (joinResults acc resp) (seen ++ nestedMessages resp) := by
  induction resp generalizing acc seen with
  | nil => simpa [joinResults, nestedMessages] using h
  | cons res rest ih =>
    have hstep := ih _ _ (aggregates_joinNested (nestedOf res) acc seen h)
    simpa [joinResults, nestedMessages, List.append_assoc] using hstep

theorem aggregates_batch (resp : List ObjectsGetResponse) :
    Aggregates (joinResults none resp) (nestedMessages resp) := by
  simpa using aggregates_joinResults resp none [] (Or.inl ⟨rfl, rfl⟩)

theorem batchInsert_of_no_transport_error (conn : WeaviateConnection) (objs : List Object)
    (resp : List ObjectsGetResponse) (h : conn.batchObjects objs = (resp, none)) :
    batchInsert conn objs = ([Event.batchDo objs], resp, joinResults none resp) := by
  unfold batchInsert
  rw [h]

/-- C4: for a batch response returned without a transport error, `batchInsert` hands
back the response and one aggregate error built from every nested error of every
result, dropping none: the error is nil exactly when there is no nested error, its
`errors.New` leaves are the nested messages in the order of the response (result by
result, then error by error), and its text is those messages joined in that order
with the newline separator of `errors.Join`. In particular one result with the two
nested errors `m1`, `m2` makes `weaviateInsertOne` return one Failure envelope whose
text ends in `m1`, a newline, `m2`. -/
theorem batchInsert_joins_every_nested_error (conn : WeaviateConnection) (objs : List Object)
    (resp : List ObjectsGetResponse) (h : conn.batchObjects objs = (resp, none)) :
    (batchInsert conn objs).2.1 = resp
      ∧ ((batchInsert conn objs).2.2 = none ↔ nestedMessages resp = [])
      ∧ (∀ e, (batchInsert conn objs).2.2 = some e →
          e.leaves = nestedMessages resp ∧ e.Error = joinedText (nestedMessages resp))
      ∧ (∀ (s : MCPServer) (req : CallToolRequest) (props : List (String × Value))
          (res : ObjectsGetResponse) (m1 m2 : String),
          s.weaviateConn = conn →
          req.Params.Arguments.lookup "properties" = some (Value.object props) →
          objs = [{ Class := parseTargetCollection s req, Properties := Value.object props,
                    ID := "" }] →
          resp = [res] →
          nestedOf res = [{ Message := m1 }, { Message := m2 }] →
          (weaviateInsertOne s req).result =
            Run.ret (NewToolResultError
              ("failed to insert object: insert one object: " ++ (m1 ++ "\n" ++ m2)), none)) := by
  have hb := batchInsert_of_no_transport_error conn objs resp h
  have hagg := aggregates_batch resp
  refine ⟨by rw [hb], ?_, ?_, ?_⟩
  · rw [hb]
    rcases hagg with ⟨h1, h2⟩ | ⟨e, h1, h2, _, _⟩
    · simp [h1, h2]
    · simp [h1, h2]
  · intro e he
    rw [hb] at he
    rcases hagg with ⟨h1, _⟩ | ⟨e2, h1, _, h3, h4⟩
    · simp only [h1] at he
      cases he
    · simp only [h1] at he
      cases he
      exact ⟨h4, h3⟩
  · intro s req props res m1 m2 hs hprops hobjs hresp hnested
    subst hs hobjs hresp
    have hmsgs : nestedMessages [res] = [m1, m2] := by
      simp [nestedMessages, hnested]
    rw [hmsgs] at hagg
    rcases hagg with ⟨_, h2⟩ | ⟨e, h1, _, h3, _⟩
    · cases h2
    · simp only [weaviateInsertOne, mapIndex, hprops, Option.getD_some, Value.assertObject,
        InsertOne, hb, h1, NewToolResultErrorFromErr, GoError.Error, h3, joinedText]
      have hlead : "failed to insert object" ++ ": " = "failed to insert object: " := by decide
      have hlead2 : "failed to insert object: " ++ "insert one object: "
          = "failed to insert object: insert one object: " := by decide
      rw [hlead, ← String.append_assoc, hlead2]

/-- Witness for C4: one result carrying the nested errors "e1" and "e2". -/
theorem batchInsert_joins_every_nested_error_witness :
    ∃ e, (batchInsert (constConn [resultWith "id-1" ["e1", "e2"]] none)
            [{ Class := "WorldMap", Properties := Value.object [], ID := "" }]).2.2 = some e
      ∧ e.leaves = ["e1", "e2"] ∧ e.Error = "e1\ne2" :=
  ⟨GoError.join [GoError.join [GoError.new "e1"], GoError.new "e2"], rfl,
    (batchInsert_joins_every_nested_error (constConn [resultWith "id-1" ["e1", "e2"]] none)
      [{ Class := "WorldMap", Properties := Value.object [], ID := "" }]
      [resultWith "id-1" ["e1", "e2"]] rfl).2.2.1 _ rfl⟩

/-! ## The insert path -/

/-- C5 (counterexample): the store answers with one result that carries the
identifier "id-1" and the nested error "boom"; `InsertOne` returns the error with a
nil object, so the identifier of the first result is not returned. -/
theorem InsertOne_nested_error_returns_nil_object :
    nestedMessages [resultWith "id-1" ["boom"]] = ["boom"]
      ∧ InsertOne (constConn [resultWith "id-1" ["boom"]] none) "WorldMap" [] =
          ⟨[Event.insertOne "WorldMap" [],
            Event.batchDo [{ Class := "WorldMap", Properties := Value.object [], ID := "" }]],
           Run.ret (none, some (GoError.errorf "insert one object: "
             (GoError.join [GoError.new "boom"])))⟩
      ∧ ¬ ∃ obj err, (InsertOne (constConn [resultWith "id-1" ["boom"]] none) "WorldMap" []).result
            = Run.ret (some obj, some err) := by
  refine ⟨rfl, rfl, ?_⟩
  rintro ⟨obj, err, h⟩
  have hrun : (InsertOne (constConn [resultWith "id-1" ["boom"]] none) "WorldMap" []).result
      = Run.ret (none, some (GoError.errorf "insert one object: "
          (GoError.join [GoError.new "boom"]))) := rfl
  rw [hrun] at h
  cases h

/-- C5 (amended): for a batch response without a transport error in which at least
one nested error exists, `batchInsert` returns the aggregate error together with the
response, and `InsertOne` returns that error wrapped with the lead "insert one
object: " together with a nil object. -/
theorem InsertOne_nested_error (conn : WeaviateConnection) (collection : String)
    (props : List (String × Value)) (resp : List ObjectsGetResponse)
    (h : conn.batchObjects [{ Class := collection, Properties := Value.object props, ID := "" }]
          = (resp, none))
    (hne : nestedMessages resp ≠ []) :
    ∃ e, (batchInsert conn [{ Class := collection, Properties := Value.object props, ID := "" }]).2
          = (resp, some e)
      ∧ e.Error = joinedText (nestedMessages resp)
      ∧ InsertOne conn collection props =
          ⟨[Event.insertOne collection props,
            Event.batchDo [{ Class := collection, Properties := Value.object props, ID := "" }]],
           Run.ret (none, some (GoError.errorf "insert one object: " e))⟩ := by
  have hb := batchInsert_of_no_transport_error conn _ resp h
  rcases aggregates_batch resp with ⟨_, h2⟩ | ⟨e, h1, _, h3, _⟩
  · exact absurd h2 hne
  · refine ⟨e, by rw [hb, h1], h3, ?_⟩
    simp only [InsertOne, hb, h1]

/-- Witness for C5 (amended): one result with the nested errors "e1" and "e2". -/
theorem InsertOne_nested_error_witness :
    ∃ e, e.Error = "e1\ne2"
      ∧ InsertOne (constConn [resultWith "id-1" ["e1", "e2"]] none) "WorldMap" [] =
          ⟨[Event.insertOne "WorldMap" [],
            Event.batchDo [{ Class := "WorldMap", Properties := Value.object [], ID := "" }]],
           Run.ret (none, some (GoError.errorf "insert one object: " e))⟩ := by
  obtain ⟨e, _, h2, h3⟩ := InsertOne_nested_error
    (constConn [resultWith "id-1" ["e1", "e2"]] none) "WorldMap" []
    [resultWith "id-1" ["e1", "e2"]] rfl (by simp [nestedMessages, nestedOf, resultWith])
  exact ⟨e, h2, h3⟩

/-- C6: when `properties` is an object and the store answers the batch call with a
non-empty response without transport error and without nested error,
`weaviateInsertOne` enters `InsertOne` once and submits exactly one object, whose
class is the resolved collection and whose properties are the given ones, and returns
a Success envelope whose text is exactly the identifier of the first result. -/
theorem weaviateInsertOne_success (s : MCPServer) (req : CallToolRequest)
    (props : List (String × Value)) (first : ObjectsGetResponse) (rest : List ObjectsGetResponse)
    (hprops : req.Params.Arguments.lookup "properties" = some (Value.object props))
    (hstore : s.weaviateConn.batchObjects
        [{ Class := parseTargetCollection s req, Properties := Value.object props, ID := "" }]
          = (first :: rest, none))
    (hclean : nestedMessages (first :: rest) = []) :
    weaviateInsertOne s req =
      ⟨[Event.insertOne (parseTargetCollection s req) props,
        Event.batchDo [{ Class := parseTargetCollection s req, Properties := Value.object props,
                         ID := "" }]],
       Run.ret ({ Content := [{ Type_ := "text", Text := first.Object.ID }], IsError := false },
         none)⟩ := by
  have hb := batchInsert_of_no_transport_error s.weaviateConn _ _ hstore
  rcases aggregates_batch (first :: rest) with ⟨h1, _⟩ | ⟨_, _, h2, _, _⟩
  · simp only [weaviateInsertOne, mapIndex, hprops, Option.getD_some, Value.assertObject,
      InsertOne, hb, h1, NewToolResultText, uuidString]
  · exact absurd hclean h2

/-- Witness for C6: the properties of the demo client, no `collection`, and a store
that assigns the identifier "id-42". -/
theorem weaviateInsertOne_success_witness :
    weaviateInsertOne (NewMCPServer (constConn [resultWith "id-42" []] none))
        (callWith "weaviate-insert-one"
          [("properties", Value.object [("continent", Value.str "Europe"),
              ("country", Value.str "Spain"), ("city", Value.str "Valencia")])]) =
      ⟨[Event.insertOne "DefaultCollection" [("continent", Value.str "Europe"),
              ("country", Value.str "Spain"), ("city", Value.str "Valencia")],
        Event.batchDo [{ Class := "DefaultCollection",
                         Properties := Value.object [("continent", Value.str "Europe"),
                           ("country", Value.str "Spain"), ("city", Value.str "Valencia")],
                         ID := "" }]],
       Run.ret ({ Content := [{ Type_ := "text", Text := "id-42" }], IsError := false }, none)⟩ :=
  weaviateInsertOne_success (NewMCPServer (constConn [resultWith "id-42" []] none))
    (callWith "weaviate-insert-one"
          [("properties", Value.object [("continent", Value.str "Europe"),
              ("country", Value.str "Spain"), ("city", Value.str "Valencia")])])
    _ (resultWith "id-42" []) [] rfl rfl rfl

/-! ## The query path -/

theorem collectStrings_strings (strs : List String) (acc : List String) :
    collectStrings (strs.map Value.str) acc = some (acc ++ strs) := by
  induction strs generalizing acc with
  | nil => simp [collectStrings]
  | cons a rest ih =>
    simp only [List.map_cons, collectStrings, Value.assertString, ih (acc ++ [a])]
    simp

theorem assignFields_from (todo : List String) (done pad : List Field)
    (hlen : pad.length = todo.length) :
    (todo.enumFrom done.length).foldl
        (fun (fields : List Field) (ip : Nat × String) => fields.set ip.1 { Name := ip.2 })
        (done ++ pad)
      = done ++ todo.map fun p => { Name := p } := by
  induction todo generalizing done pad with
  | nil =>
    cases pad with
    | nil => rfl
    | cons p ps => simp at hlen
  | cons t ts ih =>
    cases pad with
    | nil => simp at hlen
    | cons p ps =>
      have hps : ps.length = ts.length := by simpa using hlen
      have hrec := ih (done ++ [{ Name := t }]) ps hps
      simp only [List.length_append, List.length_singleton, List.append_assoc,
        List.singleton_append] at hrec
      simp only [List.enumFrom_cons, List.foldl_cons, List.map_cons]
      rw [← hrec]
      congr 1
      simp

theorem buildFields_eq_map (targetProps : List String) :
    buildFields targetProps = targetProps.map fun p => { Name := p } := by
  have h := assignFields_from targetProps [] (List.replicate targetProps.length { Name := "" })
    (by simp)
  simpa [buildFields, List.enum] using h

theorem Query_events (conn : WeaviateConnection) (collection query : String)
    (targetProps : List String) :
    (Query conn collection query targetProps).1 =
      [Event.query collection query targetProps,
       Event.graphqlDo collection query (buildFields targetProps)] := by
  unfold Query
  dsimp only
  split
  · rfl
  · split <;> rfl

theorem weaviateQuery_events (s : MCPServer) (req : CallToolRequest) (query : String)
    (targetProps : List String)
    (hq : req.Params.Arguments.lookup "query" = some (Value.str query))
    (hp : req.Params.Arguments.lookup "targetProperties"
            = some (Value.array (targetProps.map Value.str))) :
    (weaviateQuery s req).events =
      [Event.query (parseTargetCollection s req) query targetProps,
       Event.graphqlDo (parseTargetCollection s req) query (buildFields targetProps)] := by
  have hev := Query_events s.weaviateConn (parseTargetCollection s req) query targetProps
  simp only [weaviateQuery, mapIndex, hq, hp, Option.getD_some, Value.assertString,
    Value.assertArray, collectStrings_strings, List.nil_append]
  rcases hQ : Query s.weaviateConn (parseTargetCollection s req) query targetProps
    with ⟨evs, res, _ | err⟩ <;> rw [hQ] at hev <;> simpa using hev

/-- C7: for every list of strings given as `targetProperties`, the list extracted by
`weaviateQuery` equals the input list, and the field list built by `Query` has the
same length with the i-th field named by the i-th requested property: nothing is
added, removed, reordered or deduplicated. The search request issued by the handler
carries exactly these fields. -/
theorem query_projects_requested_fields (s : MCPServer) (req : CallToolRequest)
    (query : String) (targetProps : List String)
    (hq : req.Params.Arguments.lookup "query" = some (Value.str query))
    (hp : req.Params.Arguments.lookup "targetProperties"
            = some (Value.array (targetProps.map Value.str))) :
    collectStrings (targetProps.map Value.str) [] = some targetProps
      ∧ (buildFields targetProps).length = targetProps.length
      ∧ (∀ i : Nat, ((buildFields targetProps)[i]?).map Field.Name = targetProps[i]?)
      ∧ (weaviateQuery s req).events =
          [Event.query (parseTargetCollection s req) query targetProps,
           Event.graphqlDo (parseTargetCollection s req) query
             (targetProps.map fun p => { Name := p })] := by
  refine ⟨by simpa using collectStrings_strings targetProps [], ?_, ?_, ?_⟩
  · simp [buildFields_eq_map]
  · intro i
    rw [buildFields_eq_map, List.getElem?_map]
    cases targetProps[i]? <;> rfl
  · rw [weaviateQuery_events s req query targetProps hq hp, buildFields_eq_map]

/-- Witness for C7: the request of the demo client, with a repeated field. -/
theorem query_projects_requested_fields_witness :
    (weaviateQuery (NewMCPServer (constConn [] none))
        (callWith "weaviate-query"
          [("collection", Value.str "WorldMap"),
           ("query", Value.str "What country is Valencia in?"),
           ("targetProperties", Value.array
              [Value.str "continent", Value.str "country", Value.str "city",
               Value.str "country"])])).events =
      [Event.query "WorldMap" "What country is Valencia in?"
         ["continent", "country", "city", "country"],
       Event.graphqlDo "WorldMap" "What country is Valencia in?"
         [{ Name := "continent" }, { Name := "country" }, { Name := "city" },
          { Name := "country" }]] :=
  (query_projects_requested_fields (NewMCPServer (constConn [] none))
    (callWith "weaviate-query"
          [("collection", Value.str "WorldMap"),
           ("query", Value.str "What country is Valencia in?"),
           ("targetProperties", Value.array
              [Value.str "continent", Value.str "country", Value.str "city",
               Value.str "country"])])
    "What country is Valencia in?" ["continent", "country", "city", "country"] rfl rfl).2.2.2

/-! ## Result envelopes -/

theorem lookup_of_assertObject (m : List (String × Value)) (k : String)
    (props : List (String × Value)) (h : (mapIndex m k).assertObject = some props) :
    m.lookup k = some (Value.object props) := by
  unfold mapIndex at h
  cases hl : m.lookup k with
  | none => rw [hl] at h; cases h
  | some v =>
    rw [hl] at h
    cases v <;> simp [Value.assertObject] at h
    rw [h]

theorem lookup_of_assertString (m : List (String × Value)) (k : String)
    (str : String) (h : (mapIndex m k).assertString = some str) :
    m.lookup k = some (Value.str str) := by
  unfold mapIndex at h
  cases hl : m.lookup k with
  | none => rw [hl] at h; cases h
  | some v =>
    rw [hl] at h
    cases v <;> simp [Value.assertString] at h
    rw [h]

theorem lookup_of_assertArray (m : List (String × Value)) (k : String)
    (elems : List Value) (h : (mapIndex m k).assertArray = some elems) :
    m.lookup k = some (Value.array elems) := by
  unfold mapIndex at h
  cases hl : m.lookup k with
  | none => rw [hl] at h; cases h
  | some v =>
    rw [hl] at h
    cases v <;> simp [Value.assertArray] at h
    rw [h]

theorem not_phaseLed_elements_message :
    ¬ PhaseLed "targetProperties must contain only strings" := by
  rintro ⟨lead, hmem, cause, h⟩
  have hd := congrArg String.data h
  simp only [String.data_append] at hd
  simp only [phaseLeads, List.mem_cons, List.mem_singleton, List.not_mem_nil, or_false] at hmem
  rcases hmem with rfl | rfl
  · have h0 := congrArg List.head? hd
    simp at h0
  · have h0 := congrArg List.head? hd
    simp at h0

/-- C8 (counterexample): the Failure envelope that `weaviateQuery` returns for a
non-string element of `targetProperties` carries the bare message
"targetProperties must contain only strings": it is not a phase lead followed by a
cause text. -/
theorem resolution_failure_has_no_phase_lead :
    weaviateQuery (NewMCPServer (constConn [] none))
        (callWith "weaviate-query"
          [("query", Value.str "q"), ("targetProperties", Value.array [Value.number 1])]) =
      ⟨[], Run.ret ({ Content := [{ Type_ := "text",
                                     Text := "targetProperties must contain only strings" }],
                      IsError := true }, none)⟩
      ∧ ¬ PhaseLed "targetProperties must contain only strings" :=
  ⟨rfl, not_phaseLed_elements_message⟩

/-- C8 (amended): whenever a handler returns, its Go error is nil. A Failure envelope
of `weaviateInsertOne` comes from an error of `InsertOne` and its text is the lead
"failed to insert object", then ": ", then the text of that error. A Failure envelope
of `weaviateQuery` either comes from an error of `Query`, with the text "failed to
process query", then ": ", then the text of that error, or is the resolution failure
for a non-string element, produced before any store call, whose text is the bare
message "targetProperties must contain only strings" without a lead. -/
theorem failure_envelope_text (s : MCPServer) (req : CallToolRequest) :
    (∀ env goErr, (weaviateInsertOne s req).result = Run.ret (env, goErr) →
        goErr = none ∧
        (env.IsError = true →
          ∃ props obj err,
            req.Params.Arguments.lookup "properties" = some (Value.object props)
            ∧ (InsertOne s.weaviateConn (parseTargetCollection s req) props).result
                = Run.ret (obj, some err)
            ∧ env.Content = [{ Type_ := "text",
                               Text := "failed to insert object" ++ ": " ++ err.Error }]))
    ∧ (∀ env goErr, (weaviateQuery s req).result = Run.ret (env, goErr) →
        goErr = none ∧
        (env.IsError = true →
          ((weaviateQuery s req).events = []
            ∧ env.Content = [{ Type_ := "text",
                               Text := "targetProperties must contain only strings" }])
          ∨ ∃ query targetProps res err,
              req.Params.Arguments.lookup "query" = some (Value.str query)
              ∧ (Query s.weaviateConn (parseTargetCollection s req) query targetProps).2
                  = (res, some err)
              ∧ env.Content = [{ Type_ := "text",
                                 Text := "failed to process query" ++ ": " ++ err.Error }])) := by
  constructor
  · intro env goErr h
    unfold weaviateInsertOne at h
    dsimp only at h
    split at h
    · cases h
    · next props hprops =>
      split at h
      · cases h
      · next evs o err hI =>
        simp only [Run.ret.injEq, Prod.mk.injEq] at h
        obtain ⟨rfl, rfl⟩ := h
        refine ⟨rfl, fun _ => ⟨props, o, err, lookup_of_assertObject _ _ _ hprops, by rw [hI], ?_⟩⟩
        simp [NewToolResultErrorFromErr, NewToolResultError]
      · cases h
      · simp only [Run.ret.injEq, Prod.mk.injEq] at h
        obtain ⟨rfl, rfl⟩ := h
        exact ⟨rfl, fun hE => by simp [NewToolResultText] at hE⟩
  · intro env goErr h
    have h0 := h
    unfold weaviateQuery at h
    dsimp only at h
    split at h
    · cases h
    · next query hquery =>
      split at h
      · cases h
      · next props hprops =>
        split at h
        · next hcollect =>
          simp only [Run.ret.injEq, Prod.mk.injEq] at h
          obtain ⟨rfl, rfl⟩ := h
          refine ⟨rfl, fun _ => Or.inl ⟨?_, rfl⟩⟩
          unfold weaviateQuery
          simp only [hquery, hprops, hcollect]
        · next targetProps hcollect =>
          split at h
          · next evs res err hQ =>
            simp only [Run.ret.injEq, Prod.mk.injEq] at h
            obtain ⟨rfl, rfl⟩ := h
            refine ⟨rfl, fun _ => Or.inr ⟨query, targetProps, res, err,
              lookup_of_assertString _ _ _ hquery, by rw [hQ], ?_⟩⟩
            simp [NewToolResultErrorFromErr, NewToolResultError]
          · simp only [Run.ret.injEq, Prod.mk.injEq] at h
            obtain ⟨rfl, rfl⟩ := h
            exact ⟨rfl, fun hE => by simp [NewToolResultText] at hE⟩

/-- Witness for C8 (amended): the store refuses the batch call. -/
theorem failure_envelope_text_witness :
    ∃ props obj err,
      (callWith "weaviate-insert-one" [("properties", Value.object [])]).Params.Arguments.lookup
          "properties" = some (Value.object props)
      ∧ (InsertOne (constConn [] (some (GoError.new "connection refused")))
            "DefaultCollection" props).result = Run.ret (obj, some err)
      ∧ [({ Type_ := "text",
            Text := "failed to insert object: insert one object: make insertion request: connection refused" } : TextContent)]
          = [{ Type_ := "text", Text := "failed to insert object" ++ ": " ++ err.Error }] :=
  ((failure_envelope_text (NewMCPServer (constConn [] (some (GoError.new "connection refused"))))
      (callWith "weaviate-insert-one" [("properties", Value.object [])])).1
    (NewToolResultError
      "failed to insert object: insert one object: make insertion request: connection refused")
    none rfl).2 rfl

/-! ## Registration -/

/-- C9 (evaluation): `registerTools` registers two tools. The insert tool declares
`collection` (string, optional) and `properties` (object, required). The query tool
declares only `query` (string, required) and `targetProperties` (array, required):
`collection` is not declared, although `weaviateQuery` reads it: a call that sets
`collection` to "WorldMap" searches the class "WorldMap". -/
theorem registerTools_query_omits_collection (s : MCPServer) :
    (registerTools s).map (fun t =>
        (t.Tool.Name, t.Tool.InputSchema.Properties.map (fun p => (p.1, p.2.kind)),
          t.Tool.InputSchema.Required))
      = [("weaviate-insert-one", [("collection", "string"), ("properties", "object")],
            ["properties"]),
         ("weaviate-query", [("query", "string"), ("targetProperties", "array")],
            ["query", "targetProperties"])]
    ∧ (weaviateQuery s (callWith "weaviate-query"
          [("collection", Value.str "WorldMap"), ("query", Value.str "q"),
           ("targetProperties", Value.array [])])).events
        = [Event.query "WorldMap" "q" [], Event.graphqlDo "WorldMap" "q" []] :=
  ⟨rfl, weaviateQuery_events s _ "q" [] rfl rfl⟩

/-! ## Faults on the insert path -/

/-- C10 (evaluation at the failing input): the store answers the batch call with an
empty result list and no error; `InsertOne` panics on `resp[0]`, index 0 out of range
for length 0, and so does `weaviateInsertOne`: no envelope is produced. -/
theorem InsertOne_empty_response_panics :
    InsertOne (constConn [] none) "DefaultCollection" [] =
        ⟨[Event.insertOne "DefaultCollection" [],
          Event.batchDo [{ Class := "DefaultCollection", Properties := Value.object [], ID := "" }]],
         Run.panic (Panic.indexOutOfRange 0 0)⟩
      ∧ weaviateInsertOne (NewMCPServer (constConn [] none))
          (callWith "weaviate-insert-one" [("properties", Value.object [])]) =
        ⟨[Event.insertOne "DefaultCollection" [],
          Event.batchDo [{ Class := "DefaultCollection", Properties := Value.object [], ID := "" }]],
         Run.panic (Panic.indexOutOfRange 0 0)⟩ :=
  ⟨rfl, rfl⟩

end WeaviateMCP
